import Mathlib

/-!
Shallow embedding of the MT-32 MIDI handler of dosbox-staging
(src/midi/midi_mt32_model.{h,cpp} and src/midi/midi_mt32.cpp).

The synthesis engine (libmt32emu), the filesystem and the host mixer are
external collaborators; they are modelled as an oracle record `Env` whose
fields mirror the engine/filesystem calls the embedded code makes
(`path_exists`, `identifyROMFile`, `addROMFile`, `mergeAndAddROMFiles`).
The oracle answers are a pure function of the queried path(s), matching the
assumption (stated in the design) that directories do not change while the
process runs.  `service_t` state is modelled as the list of ROM resources
successfully added to the engine.  C++ `std::string` is modelled as `String`,
`std::map<std::string, bool>` as an association list, null `rom_t *` pointers
as `Option rom_t`, and machine integers as `Nat` (no value in the verified
code paths ever approaches a wrap-around boundary: frame counts are bounded
by 1024 and request sizes by 65535).
-/

/-- Return codes of the engine calls used by the model loader
(mt32emu_return_code). Codes other than the three the source compares
against are collapsed into `RC_ERR`. -/
inductive mt32emu_return_code where
  | RC_OK
  | ADDED_CONTROL_ROM
  | ADDED_PCM_ROM
  | RC_ERR
deriving DecidableEq

export mt32emu_return_code (RC_OK ADDED_CONTROL_ROM ADDED_PCM_ROM RC_ERR)

/-- mt32emu_rom_info: the identification record produced by
`service->identifyROMFile`; null id pointers become `none`. -/
structure mt32emu_rom_info where
  control_rom_id : Option String
  pcm_rom_id : Option String
deriving DecidableEq

/-- rom_t from midi_mt32_model.h: a named ROM resource file. -/
structure rom_t where
  id : String
  filename : String
deriving DecidableEq

/-- Position of the first occurrence of `c` (std::string::find_first_of);
`none` models std::string::npos. -/
def findFirst (c : Char) : List Char → Option Nat
  | [] => none
  | x :: xs => if x = c then some 0 else (findFirst c xs).map (· + 1)

/-- Position of the last occurrence of `c` (std::string::find_last_of);
`none` models std::string::npos. -/
def findLast (c : Char) : List Char → Option Nat
  | [] => none
  | x :: xs =>
    match findLast c xs with
    | some i => some (i + 1)
    | none => if x = c then some 0 else none

/-- rom_t::is_versioned from midi_mt32_model.cpp:
`id.find_first_of('_') != id.find_last_of('_')`. -/
def rom_t.is_versioned (r : rom_t) : Bool :=
  decide (findFirst '_' r.id.data ≠ findLast '_' r.id.data)

/-- Oracle for the external collaborators (filesystem + libmt32emu engine),
specified at their interface boundary.  Answers depend only on the queried
path(s). -/
structure Env where
  path_exists : String → Bool
  identifyROMFile : String → Option mt32emu_rom_info
  addROMFile : String → mt32emu_return_code
  mergeAndAddROMFiles : String → String → mt32emu_return_code

/-- A ROM resource successfully added to the engine, either one full file or
a merged half-pair (the merge is a single atomic engine operation). -/
inductive rom_add where
  | full (path : String)
  | pair (path_a path_b : String)
deriving DecidableEq

/-- Engine-side state of `service_t`: the ROM resources the engine has
accepted, in the order they were added. -/
structure Service where
  added : List rom_add
deriving DecidableEq

/-- An addROMFile/mergeAndAddROMFiles return code that reports a ROM was
taken over by the engine. -/
def rc_adds : mt32emu_return_code → Bool
  | ADDED_CONTROL_ROM => true
  | ADDED_PCM_ROM => true
  | _ => false

/-- The `check_rom` lambda inside Model::InDir: a (possibly null) rom
satisfies the presence check in `dir` when the file exists, the engine
identifies it, and — for versioned roms — the rom id matches the engine's
control-rom-id or pcm-rom-id. -/
def check_rom (env : Env) (dir : String) : Option rom_t → Bool
  | none => false
  | some rom =>
    let rom_path := dir ++ rom.filename
    if !env.path_exists rom_path then false
    else
      match env.identifyROMFile rom_path with
      | none => false
      | some info =>
        if rom.is_versioned then
          let ctrl_ver_matches :=
            match info.control_rom_id with
            | some cid => rom.id == cid
            | none => false
          let pcm_ver_matches :=
            match info.pcm_rom_id with
            | some pid => rom.id == pid
            | none => false
          ctrl_ver_matches || pcm_ver_matches
        else true

/-- Model from midi_mt32_model.h: a named bundle of PCM and control ROM
resources (full files and/or half-pairs), with the per-directory presence
cache `inDir` as its only mutable state. -/
structure Model where
  name : String
  inDir : List (String × Bool)
  pcmFull : Option rom_t
  pcmA : Option rom_t
  pcmB : Option rom_t
  ctrlFull : Option rom_t
  ctrlA : Option rom_t
  ctrlB : Option rom_t
deriving DecidableEq

/-- Model::Model: the constructor asserts a non-empty name and, for each of
PCM and control, a full resource or a complete half-pair; an argument tuple
violating an assertion is rejected (`none`). -/
def Model.make (rom_name : String) (pcm_full pcm_a pcm_b ctrl_full ctrl_a ctrl_b : Option rom_t) :
    Option Model :=
  if rom_name ≠ "" ∧ (pcm_full.isSome ∨ (pcm_a.isSome ∧ pcm_b.isSome)) ∧
      (ctrl_full.isSome ∨ (ctrl_a.isSome ∧ ctrl_b.isSome)) then
    some { name := rom_name, inDir := [],
           pcmFull := pcm_full, pcmA := pcm_a, pcmB := pcm_b,
           ctrlFull := ctrl_full, ctrlA := ctrl_a, ctrlB := ctrl_b }
  else none

/-- The uncached body of Model::InDir: `have_pcm && have_ctrl`, with
`check_both(a, b) = check_rom a && check_rom b`. -/
def Model.have_roms (m : Model) (env : Env) (dir : String) : Bool :=
  let have_pcm := check_rom env dir m.pcmFull ||
    (check_rom env dir m.pcmA && check_rom env dir m.pcmB)
  let have_ctrl := check_rom env dir m.ctrlFull ||
    (check_rom env dir m.ctrlA && check_rom env dir m.ctrlB)
  have_pcm && have_ctrl

/-- Model::InDir: answer from the `inDir` cache when present, otherwise run
the presence check and memoize the outcome (`inDir[dir] = have_both`). -/
def Model.InDir (m : Model) (env : Env) (dir : String) : Bool × Model :=
  match m.inDir.lookup dir with
  | some b => (b, m)
  | none =>
    let have_both := m.have_roms env dir
    (have_both, { m with inDir := (dir, have_both) :: m.inDir })

/-- Model::InDir instrumented with a work counter: the third component is 1
exactly when the filesystem/engine validation body ran (cache miss), 0 when
the call was answered from the cache. -/
def Model.InDirW (m : Model) (env : Env) (dir : String) : Bool × Model × Nat :=
  match m.inDir.lookup dir with
  | some b => (b, m, 0)
  | none =>
    let have_both := m.have_roms env dir
    (have_both, { m with inDir := (dir, have_both) :: m.inDir }, 1)

/-- The `load_rom` lambda inside Model::Load: call addROMFile on the rom's
path (the engine keeps the ROM whenever it reports an ADDED code) and
succeed when the return code is the expected one. -/
def load_rom (env : Env) (dir : String) (rom : Option rom_t)
    (expected_code : mt32emu_return_code) (s : Service) : Bool × Service :=
  match rom with
  | none => (false, s)
  | some rom =>
    let rom_path := dir ++ rom.filename
    let rcode := env.addROMFile rom_path
    let s := if rc_adds rcode then { added := s.added ++ [rom_add.full rom_path] } else s
    (rcode == expected_code, s)

/-- The `load_pair` lambda inside Model::Load: merge-and-add the two half
files in one atomic engine operation. -/
def load_pair (env : Env) (dir : String) (rom_a rom_b : Option rom_t)
    (expected_code : mt32emu_return_code) (s : Service) : Bool × Service :=
  match rom_a, rom_b with
  | some a, some b =>
    let rom_a_path := dir ++ a.filename
    let rom_b_path := dir ++ b.filename
    let rcode := env.mergeAndAddROMFiles rom_a_path rom_b_path
    let s := if rc_adds rcode then { added := s.added ++ [rom_add.pair rom_a_path rom_b_path] } else s
    (rcode == expected_code, s)
  | _, _ => (false, s)

/-- Model::Load: bail out unless the presence check passes, then try to load
the PCM role (full file first, else the pair) and the control role, and
succeed only when both roles loaded.  The control attempt runs even when the
PCM attempt failed, and a role's successful additions are not rolled back on
failure of the other role — exactly as in the source. -/
def Model.Load (m : Model) (env : Env) (dir : String) (s : Service) : Bool × Model × Service :=
  let p := m.InDir env dir
  if !p.1 then (false, p.2, s)
  else
    let r1 := load_rom env dir p.2.pcmFull ADDED_PCM_ROM s
    let pcm := if r1.1 then (true, r1.2) else load_pair env dir p.2.pcmA p.2.pcmB ADDED_PCM_ROM r1.2
    let r2 := load_rom env dir p.2.ctrlFull ADDED_CONTROL_ROM pcm.2
    let ctrl := if r2.1 then (true, r2.2) else load_pair env dir p.2.ctrlA p.2.ctrlB ADDED_CONTROL_ROM r2.2
    (pcm.1 && ctrl.1, p.2, ctrl.2)

/-- The inner directory loop of load_model (midi_mt32.cpp): for each
directory in order, `if (model->InDir(...) && model->Load(...)) return`,
threading the presence cache and the engine state; the first component
reports the directory that succeeded (`none` when no directory did). -/
def try_dirs (env : Env) (m : Model) (dirs : List String) (s : Service) :
    Option String × Model × Service :=
  match dirs with
  | [] => (none, m, s)
  | dir :: rest =>
    let p := m.InDir env dir
    if p.1 then
      let q := p.2.Load env dir s
      if q.1 then (some dir, q.2.1, q.2.2)
      else try_dirs env q.2.1 rest q.2.2
    else try_dirs env p.2 rest s

/-- load_model from midi_mt32.cpp: iterate the catalog; for each model whose
name is selected (or any model when the selector is "auto"), iterate the
directory order and return true on the first (model, dir) whose presence
check and load both succeed.  The updated catalog and engine state are
returned alongside the source's boolean. -/
def load_model (env : Env) (selected_model : String) (models : List Model)
    (rom_dirs : List String) (s : Service) : Bool × List Model × Service :=
  match models with
  | [] => (false, [], s)
  | m :: ms =>
    if selected_model == "auto" || selected_model == m.name then
      let t := try_dirs env m rom_dirs s
      match t.1 with
      | some _ => (true, t.2.1 :: ms, t.2.2)
      | none =>
        let r := load_model env selected_model ms rom_dirs t.2.2
        (r.1, t.2.1 :: r.2.1, r.2.2)
    else
      let r := load_model env selected_model ms rom_dirs s
      (r.1, m :: r.2.1, r.2.2)

/-- load_model enriched to report which (model name, directory) pair
satisfied the presence check and the load — the resolution result the
design's `resolve` talks about; identical control flow to `load_model`. -/
def load_model_pair (env : Env) (selected_model : String) (models : List Model)
    (rom_dirs : List String) (s : Service) : Option (String × String) × List Model × Service :=
  match models with
  | [] => (none, [], s)
  | m :: ms =>
    if selected_model == "auto" || selected_model == m.name then
      let t := try_dirs env m rom_dirs s
      match t.1 with
      | some dir => (some (t.2.1.name, dir), t.2.1 :: ms, t.2.2)
      | none =>
        let r := load_model_pair env selected_model ms rom_dirs t.2.2
        (r.1, t.2.1 :: r.2.1, r.2.2)
    else
      let r := load_model_pair env selected_model ms rom_dirs s
      (r.1, m :: r.2.1, r.2.2)

/-- The pure, cache-free success condition of the load step of a candidate
(model, dir): what Model::Load returns once the presence check has passed,
expressed directly over the engine oracle. -/
def load_pure (env : Env) (m : Model) (dir : String) : Bool :=
  ((match m.pcmFull with
    | none => false
    | some r => env.addROMFile (dir ++ r.filename) == ADDED_PCM_ROM) ||
   (match m.pcmA, m.pcmB with
    | some a, some b => env.mergeAndAddROMFiles (dir ++ a.filename) (dir ++ b.filename) == ADDED_PCM_ROM
    | _, _ => false)) &&
  ((match m.ctrlFull with
    | none => false
    | some r => env.addROMFile (dir ++ r.filename) == ADDED_CONTROL_ROM) ||
   (match m.ctrlA, m.ctrlB with
    | some a, some b => env.mergeAndAddROMFiles (dir ++ a.filename) (dir ++ b.filename) == ADDED_CONTROL_ROM
    | _, _ => false))

/-- The PCM half of `load_pure`: the pure success condition of loading the
PCM role, by the full file or else by the merged half-pair. -/
def load_pcm_pure (env : Env) (m : Model) (dir : String) : Bool :=
  (match m.pcmFull with
   | none => false
   | some r => env.addROMFile (dir ++ r.filename) == ADDED_PCM_ROM) ||
  (match m.pcmA, m.pcmB with
   | some a, some b => env.mergeAndAddROMFiles (dir ++ a.filename) (dir ++ b.filename) == ADDED_PCM_ROM
   | _, _ => false)

/-- The control half of `load_pure`: the pure success condition of loading
the control role, by the full file or else by the merged half-pair. -/
def load_ctrl_pure (env : Env) (m : Model) (dir : String) : Bool :=
  (match m.ctrlFull with
   | none => false
   | some r => env.addROMFile (dir ++ r.filename) == ADDED_CONTROL_ROM) ||
  (match m.ctrlA, m.ctrlB with
   | some a, some b => env.mergeAndAddROMFiles (dir ++ a.filename) (dir ++ b.filename) == ADDED_CONTROL_ROM
   | _, _ => false)

/-- A candidate (model, dir) is usable when the presence check and the
engine load both succeed (pure, cache-free form). -/
def usable (env : Env) (m : Model) (dir : String) : Bool :=
  m.have_roms env dir && load_pure env m dir

/-- Modelled from the spec (§4.3 resolve): iterate the catalog in priority
order; restrict to the single matching name unless the selector is the
wildcard "auto"; for each candidate configuration return the first
(configuration, directory) pair of the search order for which presence and
load succeed; `none` is the ConfigurationNotFound failure. -/
def resolve_spec (env : Env) (selected : String) (models : List Model) (dirs : List String) :
    Option (String × String) :=
  match models with
  | [] => none
  | m :: ms =>
    if selected == "auto" || selected == m.name then
      match dirs.find? (fun d => usable env m d) with
      | some d => some (m.name, d)
      | none => resolve_spec env selected ms dirs
    else resolve_spec env selected ms dirs

/-- The presence cache of a model is coherent with the environment: every
memoized entry equals the uncached presence check.  This is the reachable
states invariant of `inDir` — entries are only ever written by InDir itself,
with the just-computed check value. -/
def CacheValid (env : Env) (m : Model) : Prop :=
  ∀ dir b, m.inDir.lookup dir = some b → b = m.have_roms env dir

/-! Traditional and MAME ROM resources (midi_mt32.cpp lines 69-94). -/

def mt32_nover_pcm_f : rom_t := { id := "pcm_mt32", filename := "MT32_PCM.ROM" }

def mt32_nover_ctrl_f : rom_t := { id := "ctrl_mt32", filename := "MT32_CONTROL.ROM" }

def cm32l_nover_pcm_f : rom_t := { id := "pcm_cm32l", filename := "CM32L_PCM.ROM" }

def cm32l_nover_ctrl_f : rom_t := { id := "ctrl_cm32l", filename := "CM32L_CONTROL.ROM" }

def mt32_pcm_nover_f : rom_t := { id := "pcm_mt32", filename := "r15449121.ic37.bin" }

def mt32_pcm_nover_l : rom_t := { id := "pcm_mt32_l", filename := "r15179844.ic21.bin" }

def mt32_pcm_nover_h : rom_t := { id := "pcm_mt32_h", filename := "r15179845.ic22.bin" }

def mt32_ctrl_1_04_a : rom_t := { id := "ctrl_mt32_1_04_a", filename := "mt32_1.0.4.ic27.bin" }

def mt32_ctrl_1_04_b : rom_t := { id := "ctrl_mt32_1_04_b", filename := "mt32_1.0.4.ic26.bin" }

def mt32_ctrl_1_05_a : rom_t := { id := "ctrl_mt32_1_05_a", filename := "mt32_1.0.5.ic27.bin" }

def mt32_ctrl_1_05_b : rom_t := { id := "ctrl_mt32_1_05_b", filename := "mt32_1.0.5.ic26.bin" }

def mt32_ctrl_1_06_a : rom_t := { id := "ctrl_mt32_1_06_a", filename := "mt32_1.0.6.ic27.bin" }

def mt32_ctrl_1_06_b : rom_t := { id := "ctrl_mt32_1_06_b", filename := "mt32_1.0.6.ic26.bin" }

def mt32_ctrl_1_07_a : rom_t := { id := "ctrl_mt32_1_07_a", filename := "mt32_1.0.7.ic27.bin" }

def mt32_ctrl_1_07_b : rom_t := { id := "ctrl_mt32_1_07_b", filename := "mt32_1.0.7.ic26.bin" }

def mt32_ctrl_bluer_a : rom_t := { id := "ctrl_mt32_bluer_a", filename := "blue_ridge__mt32a.bin" }

def mt32_ctrl_bluer_b : rom_t := { id := "ctrl_mt32_bluer_b", filename := "blue_ridge__mt32b.bin" }

def mt32_ctrl_2_04_a : rom_t := { id := "ctrl_mt32_2_04_a", filename := "mt32_2.0.4.ic27.bin" }

def mt32_ctrl_2_04_b : rom_t := { id := "ctrl_mt32_2_04_b", filename := "mt32_2.0.4.ic26.bin" }

def cm32l_pcm_nover_l : rom_t := { id := "pcm_mt32", filename := "r15449121.ic37.bin" }

def cm32l_pcm_nover_h : rom_t := { id := "pcm_cm32l_h", filename := "r15179945.ic8.bin" }

def cm32l_ctrl_1_00_f : rom_t := { id := "ctrl_cm32l_1_00", filename := "lapc-i.v1.0.0.ic3.bin" }

def cm32l_ctrl_1_02_f : rom_t := { id := "ctrl_cm32l_1_02", filename := "cm32l_control.rom" }

/-! Roland LA models composed of the ROMs (midi_mt32.cpp lines 96-140),
with initially empty presence caches. -/

def mt32_nover_model : Model :=
  { name := "mt32", inDir := [],
    pcmFull := some mt32_nover_pcm_f, pcmA := none, pcmB := none,
    ctrlFull := some mt32_nover_ctrl_f, ctrlA := none, ctrlB := none }

def mt32_1_04_model : Model :=
  { name := "mt32_1_04", inDir := [],
    pcmFull := some mt32_pcm_nover_f, pcmA := some mt32_pcm_nover_l, pcmB := some mt32_pcm_nover_h,
    ctrlFull := none, ctrlA := some mt32_ctrl_1_04_a, ctrlB := some mt32_ctrl_1_04_b }

def mt32_1_05_model : Model :=
  { name := "mt32_1_05", inDir := [],
    pcmFull := some mt32_pcm_nover_f, pcmA := some mt32_pcm_nover_l, pcmB := some mt32_pcm_nover_h,
    ctrlFull := none, ctrlA := some mt32_ctrl_1_05_a, ctrlB := some mt32_ctrl_1_05_b }

def mt32_1_06_model : Model :=
  { name := "mt32_1_06", inDir := [],
    pcmFull := some mt32_pcm_nover_f, pcmA := some mt32_pcm_nover_l, pcmB := some mt32_pcm_nover_h,
    ctrlFull := none, ctrlA := some mt32_ctrl_1_06_a, ctrlB := some mt32_ctrl_1_06_b }

def mt32_1_07_model : Model :=
  { name := "mt32_1_07", inDir := [],
    pcmFull := some mt32_pcm_nover_f, pcmA := some mt32_pcm_nover_l, pcmB := some mt32_pcm_nover_h,
    ctrlFull := none, ctrlA := some mt32_ctrl_1_07_a, ctrlB := some mt32_ctrl_1_07_b }

def mt32_bluer_model : Model :=
  { name := "mt32_bluer", inDir := [],
    pcmFull := some mt32_pcm_nover_f, pcmA := some mt32_pcm_nover_l, pcmB := some mt32_pcm_nover_h,
    ctrlFull := none, ctrlA := some mt32_ctrl_bluer_a, ctrlB := some mt32_ctrl_bluer_b }

def mt32_2_04_model : Model :=
  { name := "mt32_2_04", inDir := [],
    pcmFull := some mt32_pcm_nover_f, pcmA := some mt32_pcm_nover_l, pcmB := some mt32_pcm_nover_h,
    ctrlFull := none, ctrlA := some mt32_ctrl_2_04_a, ctrlB := some mt32_ctrl_2_04_b }

def cm32l_nover_model : Model :=
  { name := "cm32l", inDir := [],
    pcmFull := some cm32l_nover_pcm_f, pcmA := none, pcmB := none,
    ctrlFull := some cm32l_nover_ctrl_f, ctrlA := none, ctrlB := none }

def cm32l_1_00_model : Model :=
  { name := "cm32l_1_00", inDir := [],
    pcmFull := some cm32l_nover_pcm_f, pcmA := some cm32l_pcm_nover_l, pcmB := some cm32l_pcm_nover_h,
    ctrlFull := some cm32l_ctrl_1_00_f, ctrlA := none, ctrlB := none }

def cm32l_1_02_model : Model :=
  { name := "cm32l_1_02", inDir := [],
    pcmFull := some cm32l_nover_pcm_f, pcmA := some cm32l_pcm_nover_l, pcmB := some cm32l_pcm_nover_h,
    ctrlFull := some cm32l_ctrl_1_02_f, ctrlA := none, ctrlB := none }

/-- The fixed model catalog in the order that "model = auto" will load
(midi_mt32.cpp lines 143-147): the CM-32L family first. -/
def all_models : List Model :=
  [cm32l_nover_model, cm32l_1_02_model, cm32l_1_00_model, mt32_nover_model,
   mt32_2_04_model, mt32_bluer_model, mt32_1_07_model, mt32_1_06_model,
   mt32_1_05_model, mt32_1_04_model]

/-! The producer-consumer buffer pipeline of MidiHandler_mt32
(midi_mt32.cpp lines 600-686).  An audio buffer's sample contents play no
role in the verified accounting, so a buffer is represented by an opaque tag. -/

/-- An audio buffer (one render quantum), identified by an opaque tag. -/
abbrev Buf := Nat

/-- FRAMES_PER_BUFFER, the synth granularity (midi_mt32.cpp line 50). -/
def FRAMES_PER_BUFFER : Nat := 1024

/-- The pre-population while-loop at the top of MidiHandler_mt32::Render:
enqueue copies of the scratch playable buffer into backstock while
`backstock.Size() < backstock.MaxCapacity() - 1`. -/
def backstock_prepopulate_loop (max_capacity : Nat) (playable_buffer : Buf)
    (backstock : List Buf) : List Buf :=
  if backstock.length < max_capacity - 1 then
    backstock_prepopulate_loop max_capacity playable_buffer (backstock ++ [playable_buffer])
  else backstock
termination_by max_capacity - 1 - backstock.length
decreasing_by simp only [List.length_append, List.length_cons, List.length_nil]; omega

/-- The full pre-population step of MidiHandler_mt32::Render: the while-loop
followed by `backstock.Enqueue(std::move(playable_buffer))`. -/
def render_prepopulate (max_capacity : Nat) (playable_buffer : Buf)
    (backstock : List Buf) : List Buf :=
  backstock_prepopulate_loop max_capacity playable_buffer backstock ++ [playable_buffer]

/-- State the Playback Pull Interface reads and writes: the current play
buffer, the two recycling queues, and the playback cursor
(total_buffers_played, last_played_frame). -/
structure PlayState where
  play_buffer : Buf
  playable : List Buf
  backstock : List Buf
  total_buffers_played : Nat
  last_played_frame : Nat
deriving DecidableEq

/-- MidiHandler_mt32::GetRemainingFrames: if the current buffer still has
frames, report how many; otherwise return the spent buffer to backstock,
dequeue the next playable buffer (blocking — modelled as `none` — when the
playable queue is empty), advance the buffer counter, reset the frame
cursor, and report a full buffer. -/
def GetRemainingFrames (s : PlayState) : Option (Nat × PlayState) :=
  if s.last_played_frame < FRAMES_PER_BUFFER then
    some (FRAMES_PER_BUFFER - s.last_played_frame, s)
  else
    match s.playable with
    | [] => none
    | b :: rest =>
      some (FRAMES_PER_BUFFER,
        { s with backstock := s.backstock ++ [s.play_buffer],
                 play_buffer := b,
                 playable := rest,
                 total_buffers_played := s.total_buffers_played + 1,
                 last_played_frame := 0 })

/-- MidiHandler_mt32::MixerCallBack: while frames are still requested, play
`min(GetRemainingFrames(), requested_frames)` frames from the current buffer
(the sample copy into the mixer is not modelled), then advance the request
and cursor counters.  `none` models blocking forever on an empty playable
queue. -/
def MixerCallBack (requested_frames : Nat) (s : PlayState) : Option PlayState :=
  if requested_frames = 0 then some s
  else
    match h : GetRemainingFrames s with
    | none => none
    | some rp =>
      let frames_to_be_played := min rp.1 requested_frames
      MixerCallBack (requested_frames - frames_to_be_played)
        { rp.2 with last_played_frame := rp.2.last_played_frame + frames_to_be_played }
termination_by requested_frames
decreasing_by
  have hpos : 0 < rp.1 := by
    simp only [GetRemainingFrames, FRAMES_PER_BUFFER] at h
    split at h
    · rename_i hlt
      cases h
      simp only [FRAMES_PER_BUFFER]
      omega
    · split at h
      · cases h
      · cases h
        simp
  omega

/-! Lifecycle controller state and MidiHandler_mt32::Close
(midi_mt32.cpp lines 562-598). -/

/-- The mixer channel, reduced to the playback-enabled flag that Close
toggles. -/
structure channel_t where
  enabled : Bool
deriving DecidableEq

/-- The members of MidiHandler_mt32 that Close reads or writes.  The
rendering thread itself is reduced to its joinability; the soft limiter's
statistics/reset calls carry no state the claims mention. -/
structure MidiHandlerState where
  is_open : Bool
  channel : Option channel_t
  service : Option Service
  keep_rendering : Bool
  renderer_joinable : Bool
  backstock : List Buf
  playable : List Buf
  play_buffer : Buf
  total_buffers_played : Nat
  last_played_frame : Nat
deriving DecidableEq

/-- The playable-draining while-loop of Close:
`while (playable.Size()) play_buffer = playable.Dequeue();`. -/
def drain_playable : List Buf → Buf → Buf
  | [], pb => pb
  | b :: rest, _ => drain_playable rest b

/-- MidiHandler_mt32::Close: an immediate return when the handler is not
open; otherwise disable playback, stop rendering, guarantee a free backstock
slot, drain the playable ring, join the renderer, close and free the
synthesizer, and reset the members. -/
def Close (st : MidiHandlerState) : MidiHandlerState :=
  if !st.is_open then st
  else
    let st := { st with channel := st.channel.map (fun c : channel_t => { c with enabled := false }) }
    let st := { st with keep_rendering := false }
    let st := if st.backstock.length = 0
      then { st with backstock := st.backstock ++ [st.play_buffer] } else st
    let st := { st with play_buffer := drain_playable st.playable st.play_buffer,
                        playable := [] }
    let st := { st with renderer_joinable := false }
    { st with channel := none, service := none,
              total_buffers_played := 0, last_played_frame := 0,
              is_open := false }

/-! MidiHandler_mt32::SetMixerLevel (midi_mt32.cpp lines 547-560).  The
source computes on `float`; the embedding uses `ℚ` for the exact arithmetic
the claim is about, and models float division as a partial operation that is
undefined (`none`) on a zero divisor — the boundary the claim calls
undefined behaviour. -/

/-- A stereo level pair (AudioFrame), over exact rationals in place of the
source's floats. -/
structure AudioFrame where
  left : ℚ
  right : ℚ
deriving DecidableEq

/-- Division as the source applies it to floats, made partial at the one
point (zero divisor) where the float semantics leaves the rationals. -/
def fdiv (x y : ℚ) : Option ℚ :=
  if y = 0 then none else some (x / y)

/-- MidiHandler_mt32::SetMixerLevel: gain is the larger of the two channel
levels; it is handed to `service->setOutputGain` and each channel level is
divided by it — with no guard against a zero gain — to produce the desired
ratios handed to the soft limiter.  The result is (gain, desired). -/
def SetMixerLevel (levels : AudioFrame) : Option (ℚ × AudioFrame) :=
  let gain := max levels.left levels.right
  match fdiv levels.left gain, fdiv levels.right gain with
  | some dl, some dr => some (gain, { left := dl, right := dr })
  | _, _ => none

/-! Concrete environments and states used to instantiate the theorems on
explicit inputs. -/

/-- An environment with no ROM files at all. -/
def env_empty : Env :=
  { path_exists := fun _ => false,
    identifyROMFile := fun _ => none,
    addROMFile := fun _ => RC_ERR,
    mergeAndAddROMFiles := fun _ _ => RC_ERR }

/-- An engine context with no ROMs added. -/
def service_empty : Service := { added := [] }

/-- A model "ma" made of one full unversioned PCM ROM and one full
unversioned control ROM. -/
def model_ma : Model :=
  { name := "ma", inDir := [],
    pcmFull := some { id := "pcm_ma", filename := "ma_pcm.rom" },
    pcmA := none, pcmB := none,
    ctrlFull := some { id := "ctrl_ma", filename := "ma_ctrl.rom" },
    ctrlA := none, ctrlB := none }

/-- A model "mb" made of one full unversioned PCM ROM and one full
unversioned control ROM. -/
def model_mb : Model :=
  { name := "mb", inDir := [],
    pcmFull := some { id := "pcm_mb", filename := "mb_pcm.rom" },
    pcmA := none, pcmB := none,
    ctrlFull := some { id := "ctrl_mb", filename := "mb_ctrl.rom" },
    ctrlA := none, ctrlB := none }

/-- An environment in which model "ma" is usable only in "dir2/" while model
"mb" is usable only in the earlier directory "dir1/". -/
def env_cross : Env :=
  { path_exists := fun p =>
      p == "dir2/ma_pcm.rom" || p == "dir2/ma_ctrl.rom" ||
      p == "dir1/mb_pcm.rom" || p == "dir1/mb_ctrl.rom",
    identifyROMFile := fun p =>
      if p == "dir2/ma_pcm.rom" || p == "dir2/ma_ctrl.rom" ||
          p == "dir1/mb_pcm.rom" || p == "dir1/mb_ctrl.rom" then
        some { control_rom_id := none, pcm_rom_id := none }
      else none,
    addROMFile := fun p =>
      if p == "dir2/ma_pcm.rom" || p == "dir1/mb_pcm.rom" then ADDED_PCM_ROM
      else if p == "dir2/ma_ctrl.rom" || p == "dir1/mb_ctrl.rom" then ADDED_CONTROL_ROM
      else RC_ERR,
    mergeAndAddROMFiles := fun _ _ => RC_ERR }

/-- An environment in which both traditional MT-32 ROM files are present in
"d/" and identified by the engine, but only the PCM ROM can actually be
added: the control add fails. -/
def env_pcm_only : Env :=
  { path_exists := fun _ => true,
    identifyROMFile := fun _ => some { control_rom_id := none, pcm_rom_id := none },
    addROMFile := fun p => if p == "d/MT32_PCM.ROM" then ADDED_PCM_ROM else RC_ERR,
    mergeAndAddROMFiles := fun _ _ => RC_ERR }

/-- An environment in which both traditional MT-32 ROM files are present in
"d/" and identified by the engine, but only the control ROM can actually be
added: the PCM add fails — the mirror image of `env_pcm_only`. -/
def env_ctrl_only : Env :=
  { path_exists := fun _ => true,
    identifyROMFile := fun _ => some { control_rom_id := none, pcm_rom_id := none },
    addROMFile := fun p => if p == "d/MT32_CONTROL.ROM" then ADDED_CONTROL_ROM else RC_ERR,
    mergeAndAddROMFiles := fun _ _ => RC_ERR }

/-- The playback state of the C7 scenario: 1024-frame quanta, 400 frames
remaining in the current buffer (cursor at frame 624), three full buffers
queued as playable. -/
def scenario_state : PlayState :=
  { play_buffer := 100, playable := [101, 102, 103], backstock := [],
    total_buffers_played := 0, last_played_frame := 624 }

/-- A handler state that was never opened (or has already been closed). -/
def st_not_open : MidiHandlerState :=
  { is_open := false, channel := none, service := none,
    keep_rendering := false, renderer_joinable := false,
    backstock := [], playable := [], play_buffer := 0,
    total_buffers_played := 0, last_played_frame := 0 }

/-- An open handler state, used to exercise Close-twice. -/
def st_opened : MidiHandlerState :=
  { is_open := true, channel := some { enabled := true },
    service := some service_empty,
    keep_rendering := true, renderer_joinable := true,
    backstock := [], playable := [4, 5], play_buffer := 3,
    total_buffers_played := 9, last_played_frame := 17 }

/-! Supporting lemmas. -/

/-- Lookup in an association list after prepending the looked-up key. -/
theorem lookup_cons_self {d : String} {v : Bool} {rest : List (String × Bool)} :
    ((d, v) :: rest).lookup d = some v := by
  simp [List.lookup]

/-- Lookup in an association list after prepending a different key. -/
theorem lookup_cons_ne {d k : String} {v : Bool} {rest : List (String × Bool)} (hne : d ≠ k) :
    ((k, v) :: rest).lookup d = rest.lookup d := by
  simp only [List.lookup]
  rw [show (d == k) = false from beq_eq_false_iff_ne.mpr hne]

/-- findFirst finds nothing exactly on strings without the character. -/
theorem findFirst_eq_none_iff (c : Char) (l : List Char) :
    findFirst c l = none ↔ l.count c = 0 := by
  induction l with
  | nil => simp [findFirst]
  | cons x xs ih =>
    by_cases hx : x = c
    · subst hx
      simp [findFirst, List.count_cons]
    · simp [findFirst, List.count_cons, hx, Ne.symm hx, ih]

/-- findLast finds nothing exactly on strings without the character. -/
theorem findLast_eq_none_iff (c : Char) (l : List Char) :
    findLast c l = none ↔ l.count c = 0 := by
  induction l with
  | nil => simp [findLast]
  | cons x xs ih =>
    simp only [findLast]
    cases h : findLast c xs with
    | some i =>
      have hne : xs.count c ≠ 0 := by
        intro h0
        rw [ih.mpr h0] at h
        simp at h
      simp [List.count_cons, hne]
    | none =>
      by_cases hx : x = c
      · subst hx
        simp [List.count_cons]
      · simp [List.count_cons, hx, Ne.symm hx, ih.mp h]

/-- The first and the last occurrence coincide exactly when the character
occurs at most once. -/
theorem findFirst_eq_findLast_iff (c : Char) (l : List Char) :
    findFirst c l = findLast c l ↔ l.count c ≤ 1 := by
  induction l with
  | nil => simp [findFirst, findLast]
  | cons x xs ih =>
    by_cases hx : x = c
    · subst hx
      cases h : findLast x xs with
      | none =>
        have hcount := (findLast_eq_none_iff x xs).mp h
        simp [findFirst, findLast, h, List.count_cons, hcount]
      | some i =>
        have hcount : xs.count x ≠ 0 := by
          intro h0
          rw [(findLast_eq_none_iff x xs).mpr h0] at h
          simp at h
        simp [findFirst, findLast, h, List.count_cons]
        omega
    · cases hf : findFirst c xs with
      | none =>
        cases hl : findLast c xs with
        | none =>
          have hcount := (findLast_eq_none_iff c xs).mp hl
          simp [findFirst, findLast, hf, hl, hx, List.count_cons, Ne.symm hx, hcount]
        | some j =>
          have h1 := (findFirst_eq_none_iff c xs).mp hf
          have h2 : xs.count c ≠ 0 := by
            intro h0
            rw [(findLast_eq_none_iff c xs).mpr h0] at hl
            simp at hl
          exact absurd h1 h2
      | some i =>
        cases hl : findLast c xs with
        | none =>
          have h1 := (findLast_eq_none_iff c xs).mp hl
          have h2 : xs.count c ≠ 0 := by
            intro h0
            rw [(findFirst_eq_none_iff c xs).mpr h0] at hf
            simp at hf
          exact absurd h1 h2
        | some j =>
          have hx2 := ih
          rw [hf, hl] at hx2
          simp [findFirst, findLast, hf, hl, hx, List.count_cons, Ne.symm hx]
          simpa using hx2

/-- is_versioned holds exactly when the id contains at least two
underscores. -/
theorem is_versioned_iff (r : rom_t) :
    r.is_versioned = true ↔ 2 ≤ r.id.data.count '_' := by
  rw [rom_t.is_versioned, decide_eq_true_iff, Ne, findFirst_eq_findLast_iff]
  omega

/-- InDir only ever rewrites the presence cache: the result model is the
input model with some cache contents. -/
theorem InDir_snd_eq (m : Model) (env : Env) (dir : String) :
    ∃ c, (m.InDir env dir).2 = { m with inDir := c } := by
  cases hl : m.inDir.lookup dir with
  | some b => exact ⟨m.inDir, by simp [Model.InDir, hl]⟩
  | none => exact ⟨(dir, m.have_roms env dir) :: m.inDir, by simp [Model.InDir, hl]⟩

/-- Replacing the cache does not change the uncached presence check. -/
theorem have_roms_set_inDir (m : Model) (c : List (String × Bool)) (env : Env) (dir : String) :
    Model.have_roms { m with inDir := c } env dir = m.have_roms env dir := rfl

/-- Replacing the cache does not change the pure load condition. -/
theorem load_pure_set_inDir (m : Model) (c : List (String × Bool)) (env : Env) (dir : String) :
    load_pure env { m with inDir := c } dir = load_pure env m dir := rfl

/-- Replacing the cache does not change the usability of a directory. -/
theorem usable_set_inDir (m : Model) (c : List (String × Bool)) (env : Env) (dir : String) :
    usable env { m with inDir := c } dir = usable env m dir := rfl

/-- Replacing the cache does not change the model name. -/
theorem name_set_inDir (m : Model) (c : List (String × Bool)) :
    Model.name { m with inDir := c } = m.name := rfl

/-- On a coherent cache, InDir answers the uncached presence check. -/
theorem InDir_fst (env : Env) (m : Model) (dir : String) (h : CacheValid env m) :
    (m.InDir env dir).1 = m.have_roms env dir := by
  cases hl : m.inDir.lookup dir with
  | some b => simpa [Model.InDir, hl] using h dir b hl
  | none => simp [Model.InDir, hl]

/-- InDir keeps the cache coherent. -/
theorem InDir_cacheValid (env : Env) (m : Model) (dir : String) (h : CacheValid env m) :
    CacheValid env (m.InDir env dir).2 := by
  cases hl : m.inDir.lookup dir with
  | some b => simpa [Model.InDir, hl] using h
  | none =>
    simp only [Model.InDir, hl]
    intro d b hb
    by_cases hd : d = dir
    · subst hd
      rw [lookup_cons_self] at hb
      cases hb
      rfl
    · rw [lookup_cons_ne hd] at hb
      exact h d b hb

/-- After an InDir call the queried directory is cached, holding the value
the call returned. -/
theorem InDir_caches (env : Env) (m : Model) (dir : String) :
    ((m.InDir env dir).2).inDir.lookup dir = some (m.InDir env dir).1 := by
  cases hl : m.inDir.lookup dir with
  | some b => simp [Model.InDir, hl]
  | none => simp [Model.InDir, hl, lookup_cons_self]

/-- The success bit of the load_rom lambda depends only on the oracle, not
on the engine state it threads. -/
theorem load_rom_fst (env : Env) (dir : String) (rom : Option rom_t)
    (expected_code : mt32emu_return_code) (s : Service) :
    (load_rom env dir rom expected_code s).1 =
      match rom with
      | none => false
      | some r => env.addROMFile (dir ++ r.filename) == expected_code := by
  cases rom <;> rfl

/-- The success bit of the load_pair lambda depends only on the oracle, not
on the engine state it threads. -/
theorem load_pair_fst (env : Env) (dir : String) (rom_a rom_b : Option rom_t)
    (expected_code : mt32emu_return_code) (s : Service) :
    (load_pair env dir rom_a rom_b expected_code s).1 =
      match rom_a, rom_b with
      | some a, some b =>
        env.mergeAndAddROMFiles (dir ++ a.filename) (dir ++ b.filename) == expected_code
      | _, _ => false := by
  cases rom_a <;> cases rom_b <;> rfl

/-- Load returns the model produced by its own InDir call. -/
theorem Load_snd_model (env : Env) (m : Model) (dir : String) (s : Service) :
    (m.Load env dir s).2.1 = (m.InDir env dir).2 := by
  simp only [Model.Load]
  cases h : (m.InDir env dir).1 <;> simp [h]

/-- On a coherent cache, the boolean Load returns is the presence check
conjoined with the pure load condition. -/
theorem Load_fst (env : Env) (m : Model) (dir : String) (s : Service) (h : CacheValid env m) :
    (m.Load env dir s).1 = (m.have_roms env dir && load_pure env m dir) := by
  obtain ⟨c, hc⟩ := InDir_snd_eq m env dir
  simp only [Model.Load]
  rw [InDir_fst env m dir h, hc]
  cases hroms : m.have_roms env dir
  · simp
  · simp only [Bool.not_true, Bool.false_eq_true, if_false, Bool.true_and]
    rw [load_pure]
    cases hpf : (match m.pcmFull with
        | none => false
        | some r => env.addROMFile (dir ++ r.filename) == ADDED_PCM_ROM) <;>
      cases hcf : (match m.ctrlFull with
          | none => false
          | some r => env.addROMFile (dir ++ r.filename) == ADDED_CONTROL_ROM) <;>
      simp [hpf, hcf, load_rom_fst, load_pair_fst]

/-- The inner directory loop returns the first directory of the order that
is usable for the model (presence and load both succeed), touches only the
model's cache, and keeps that cache coherent. -/
theorem try_dirs_spec (env : Env) (dirs : List String) :
    ∀ (m : Model) (s : Service), CacheValid env m →
      (try_dirs env m dirs s).1 = dirs.find? (usable env m) ∧
      (∃ c, (try_dirs env m dirs s).2.1 = { m with inDir := c }) ∧
      CacheValid env (try_dirs env m dirs s).2.1 := by
  induction dirs with
  | nil =>
    intro m s h
    exact ⟨rfl, ⟨m.inDir, rfl⟩, h⟩
  | cons dir rest ih =>
    intro m s h
    have h1 := InDir_fst env m dir h
    obtain ⟨c, hc⟩ := InDir_snd_eq m env dir
    have hcv1 : CacheValid env (m.InDir env dir).2 := InDir_cacheValid env m dir h
    simp only [try_dirs]
    cases hroms : m.have_roms env dir with
    | false =>
      rw [h1, hroms]
      have hu : usable env m dir = false := by simp [usable, hroms]
      have hfind : (dir :: rest).find? (usable env m) = rest.find? (usable env m) := by
        simp only [List.find?, hu]
      rw [hfind]
      simp only [Bool.false_eq_true, if_false]
      obtain ⟨hfst, ⟨c2, hc2⟩, hcv2⟩ := ih (m.InDir env dir).2 s hcv1
      refine ⟨?_, ?_, hcv2⟩
      · rw [hfst, hc]
        congr 1
      · rw [hc2, hc]
        exact ⟨c2, rfl⟩
    | true =>
      rw [h1, hroms]
      simp only [if_true]
      have hload : ((m.InDir env dir).2.Load env dir s).1 = load_pure env m dir := by
        rw [Load_fst env _ dir s hcv1, hc, have_roms_set_inDir, load_pure_set_inDir, hroms,
            Bool.true_and]
      have hmodel : ((m.InDir env dir).2.Load env dir s).2.1
          = ((m.InDir env dir).2.InDir env dir).2 := Load_snd_model env _ dir s
      obtain ⟨c3, hc3⟩ := InDir_snd_eq (m.InDir env dir).2 env dir
      have hcv3 : CacheValid env ((m.InDir env dir).2.InDir env dir).2 :=
        InDir_cacheValid env _ dir hcv1
      cases hlp : load_pure env m dir with
      | true =>
        have hu : usable env m dir = true := by simp [usable, hroms, hlp]
        have hfind : (dir :: rest).find? (usable env m) = some dir := by
          simp only [List.find?, hu]
        rw [hload, hlp, hfind]
        simp only [if_true]
        refine ⟨by simp, ?_, by rw [hmodel]; exact hcv3⟩
        rw [hmodel, hc3, hc]
        exact ⟨c3, rfl⟩
      | false =>
        have hu : usable env m dir = false := by simp [usable, hroms, hlp]
        have hfind : (dir :: rest).find? (usable env m) = rest.find? (usable env m) := by
          simp only [List.find?, hu]
        rw [hload, hlp, hfind]
        simp only [Bool.false_eq_true, if_false]
        have hcvq : CacheValid env ((m.InDir env dir).2.Load env dir s).2.1 := by
          rw [hmodel]; exact hcv3
        obtain ⟨hfst, ⟨c4, hc4⟩, hcv4⟩ :=
          ih ((m.InDir env dir).2.Load env dir s).2.1 ((m.InDir env dir).2.Load env dir s).2.2 hcvq
        refine ⟨?_, ?_, hcv4⟩
        · rw [hfst, hmodel, hc3, hc]
          congr 1
        · rw [hc4, hmodel, hc3, hc]
          exact ⟨c4, rfl⟩

/-- With coherent caches, the pair-reporting resolver computes exactly the
spec-side resolve: first matching model in catalog priority order, first
usable directory in search order. -/
theorem load_model_pair_spec (env : Env) (sel : String) (dirs : List String) :
    ∀ (models : List Model) (s : Service), (∀ m ∈ models, CacheValid env m) →
      (load_model_pair env sel models dirs s).1 = resolve_spec env sel models dirs := by
  intro models
  induction models with
  | nil => intro s h; rfl
  | cons m ms ih =>
    intro s h
    have hm : CacheValid env m := h m (List.mem_cons_self m ms)
    have hms : ∀ x ∈ ms, CacheValid env x := fun x hx => h x (List.mem_cons_of_mem m hx)
    simp only [load_model_pair, resolve_spec]
    cases hsel : (sel == "auto" || sel == m.name) with
    | false => simp only [Bool.false_eq_true, if_false]; exact ih s hms
    | true =>
      simp only [if_true]
      obtain ⟨hfst, ⟨c, hc⟩, _⟩ := try_dirs_spec env dirs m s hm
      cases hfd : dirs.find? (usable env m) with
      | some d =>
        rw [hfst, hfd]
        simp only [Option.some.injEq]
        rw [hc]
      | none =>
        rw [hfst, hfd]
        simp only []
        exact ih (try_dirs env m dirs s).2.2 hms

/-- The boolean the source's load_model returns is the success bit of the
pair-reporting variant. -/
theorem load_model_eq_pair (env : Env) (sel : String) (dirs : List String) :
    ∀ (models : List Model) (s : Service),
      (load_model env sel models dirs s).1 = (load_model_pair env sel models dirs s).1.isSome := by
  intro models
  induction models with
  | nil => intro s; rfl
  | cons m ms ih =>
    intro s
    simp only [load_model, load_model_pair]
    cases hsel : (sel == "auto" || sel == m.name) with
    | false => simp only [Bool.false_eq_true, if_false]; exact ih s
    | true =>
      simp only [if_true]
      cases ht : (try_dirs env m dirs s).1 with
      | some d => rfl
      | none => simp only []; exact ih (try_dirs env m dirs s).2.2
  

/-- Unfolding a successful spec-side resolution: the returned name belongs
to a selector-matching catalog entry, and the returned directory is the
first directory of the search order usable for that entry. -/
theorem resolve_spec_eq_some (env : Env) (sel : String) (dirs : List String) :
    ∀ (models : List Model) (n d : String),
      resolve_spec env sel models dirs = some (n, d) →
      ∃ m, m ∈ models ∧ m.name = n ∧ (sel == "auto" || sel == m.name) = true ∧
        dirs.find? (usable env m) = some d := by
  intro models
  induction models with
  | nil => intro n d h; cases h
  | cons m ms ih =>
    intro n d h
    simp only [resolve_spec] at h
    cases hsel : (sel == "auto" || sel == m.name) with
    | false =>
      rw [hsel] at h
      simp only [Bool.false_eq_true, if_false] at h
      obtain ⟨x, hx, hn, hs, hf⟩ := ih n d h
      exact ⟨x, List.mem_cons_of_mem m hx, hn, hs, hf⟩
    | true =>
      rw [hsel] at h
      simp only [if_true] at h
      cases hfd : dirs.find? (usable env m) with
      | some d2 =>
        rw [hfd] at h
        simp only [Option.some.injEq, Prod.mk.injEq] at h
        exact ⟨m, List.mem_cons_self m ms, h.1, hsel, by rw [hfd, h.2]⟩
      | none =>
        rw [hfd] at h
        simp only [] at h
        obtain ⟨x, hx, hn, hs, hf⟩ := ih n d h
        exact ⟨x, List.mem_cons_of_mem m hx, hn, hs, hf⟩

/-- A model with an empty presence cache has a coherent cache. -/
theorem cacheValid_of_nil (env : Env) (m : Model) (h : m.inDir = []) : CacheValid env m := by
  intro dir b hb
  rw [h] at hb
  cases hb

/-- Claim C3: for every model, engine service oracle and directory, calling
the presence check twice returns the same boolean both times, and the
filesystem/engine validation work runs at most once for the pair — the
second call is answered from the per-model cache (its work counter is 0 and
it leaves the model untouched).  The plain InDir is the instrumented one
with the counter erased. -/
theorem claim_C3 (env : Env) (m : Model) (dir : String) :
    m.InDir env dir = ((m.InDirW env dir).1, (m.InDirW env dir).2.1) ∧
    ((m.InDirW env dir).2.1.InDirW env dir).1 = (m.InDirW env dir).1 ∧
    ((m.InDirW env dir).2.1.InDirW env dir).2.1 = (m.InDirW env dir).2.1 ∧
    ((m.InDirW env dir).2.1.InDirW env dir).2.2 = 0 ∧
    (m.InDirW env dir).2.2 + ((m.InDirW env dir).2.1.InDirW env dir).2.2 ≤ 1 := by
  cases hl : m.inDir.lookup dir with
  | some b => simp [Model.InDir, Model.InDirW, hl]
  | none => simp [Model.InDir, Model.InDirW, hl, lookup_cons_self]

/-- Claim C5: Model construction rejects a PCM role with neither a full
resource nor a complete half-pair (likewise for the control role), and every
successfully constructed Model satisfies both role invariants. -/
theorem claim_C5 (rom_name : String)
    (pcm_full pcm_a pcm_b ctrl_full ctrl_a ctrl_b : Option rom_t) :
    (¬(pcm_full.isSome ∨ (pcm_a.isSome ∧ pcm_b.isSome)) →
      Model.make rom_name pcm_full pcm_a pcm_b ctrl_full ctrl_a ctrl_b = none) ∧
    (¬(ctrl_full.isSome ∨ (ctrl_a.isSome ∧ ctrl_b.isSome)) →
      Model.make rom_name pcm_full pcm_a pcm_b ctrl_full ctrl_a ctrl_b = none) ∧
    (∀ m, Model.make rom_name pcm_full pcm_a pcm_b ctrl_full ctrl_a ctrl_b = some m →
      (m.pcmFull.isSome ∨ (m.pcmA.isSome ∧ m.pcmB.isSome)) ∧
      (m.ctrlFull.isSome ∨ (m.ctrlA.isSome ∧ m.ctrlB.isSome))) := by
  refine ⟨?_, ?_, ?_⟩
  · intro h
    rw [Model.make, if_neg]
    intro hcond
    exact h hcond.2.1
  · intro h
    rw [Model.make, if_neg]
    intro hcond
    exact h hcond.2.2
  · intro m hm
    rw [Model.make] at hm
    split at hm
    · rename_i hcond
      cases hm
      exact ⟨hcond.2.1, hcond.2.2⟩
    · cases hm

/-- Witness for C5 at concrete inputs: a model without any PCM resource is
rejected, and the constructed "mt32" model satisfies both invariants. -/
theorem claim_C5_witness :
    Model.make "x" none none none (some mt32_nover_ctrl_f) none none = none ∧
    ((mt32_nover_model.pcmFull.isSome ∨
        (mt32_nover_model.pcmA.isSome ∧ mt32_nover_model.pcmB.isSome)) ∧
     (mt32_nover_model.ctrlFull.isSome ∨
        (mt32_nover_model.ctrlA.isSome ∧ mt32_nover_model.ctrlB.isSome))) :=
  ⟨(claim_C5 "x" none none none (some mt32_nover_ctrl_f) none none).1 (by simp),
   (claim_C5 "mt32" (some mt32_nover_pcm_f) none none (some mt32_nover_ctrl_f) none none).2.2
     mt32_nover_model (by decide)⟩

/-- Claim C8: Close on a handler that is not open returns without modifying
any state, and a second Close right after a Close is a no-op — Close is
idempotent on every state. -/
theorem claim_C8 (st st2 : MidiHandlerState) (h : st.is_open = false) :
    Close st = st ∧ Close (Close st2) = Close st2 := by
  constructor
  · simp [Close, h]
  · by_cases h2 : st2.is_open = true
    · simp [Close, h2]
    · have h2f : st2.is_open = false := by simpa using h2
      simp [Close, h2f]

/-- Witness for C8: a never-opened handler state is returned unchanged, and
closing an opened state twice equals closing it once. -/
theorem claim_C8_witness :
    Close st_not_open = st_not_open ∧ Close (Close st_opened) = Close st_opened :=
  claim_C8 st_not_open st_opened (by decide)

/-- Claim C9: SetMixerLevel divides by the unguarded maximum of the two
channel levels; when that maximum is positive both quotients are defined and
the larger channel's desired ratio is exactly 1, while on the input (0, 0)
the divisor is zero and the division is undefined. -/
theorem claim_C9 (l r : ℚ) (h : 0 < max l r) :
    (∃ d, SetMixerLevel { left := l, right := r } = some (max l r, d) ∧
      max d.left d.right = 1) ∧
    SetMixerLevel { left := 0, right := 0 } = none := by
  have hg : max l r ≠ 0 := ne_of_gt h
  refine ⟨⟨{ left := l / max l r, right := r / max l r }, ?_, ?_⟩, ?_⟩
  · simp [SetMixerLevel, fdiv, hg]
  · rcases le_total l r with hle | hle
    · have hmax : max l r = r := max_eq_right hle
      rw [hmax] at h ⊢
      simp only
      rw [div_self (ne_of_gt h)]
      exact max_eq_right ((div_le_one h).mpr hle)
    · have hmax : max l r = l := max_eq_left hle
      rw [hmax] at h ⊢
      simp only
      rw [div_self (ne_of_gt h)]
      exact max_eq_left ((div_le_one h).mpr hle)
  · simp [SetMixerLevel, fdiv]

/-- Witness for C9 at the concrete levels (3, 2). -/
theorem claim_C9_witness :
    (∃ d, SetMixerLevel { left := (3 : ℚ), right := 2 } = some (max 3 2, d) ∧
      max d.left d.right = 1) ∧
    SetMixerLevel { left := (0 : ℚ), right := 0 } = none :=
  claim_C9 3 2 (by norm_num)

/-- Claim C10: is_versioned holds exactly when the id has at least two
underscores; an unversioned resource (such as "pcm_mt32", which has one)
passes the per-file presence check exactly when the file exists and the
engine identifies it — no ROM-id comparison is involved. -/
theorem claim_C10 (r : rom_t) (env : Env) (dir : String) :
    (r.is_versioned = true ↔ 2 ≤ r.id.data.count '_') ∧
    (r.is_versioned = false →
      check_rom env dir (some r) =
        (env.path_exists (dir ++ r.filename) &&
         (env.identifyROMFile (dir ++ r.filename)).isSome)) ∧
    rom_t.is_versioned { id := "pcm_mt32", filename := "MT32_PCM.ROM" } = false := by
  refine ⟨is_versioned_iff r, ?_, by decide⟩
  intro hv
  simp only [check_rom]
  cases hpe : env.path_exists (dir ++ r.filename) with
  | false => simp [hpe]
  | true =>
    cases hid : env.identifyROMFile (dir ++ r.filename) with
    | none => simp [hpe, hid]
    | some info => simp [hpe, hid, hv]

/-- Witness for C10: the unversioned "pcm_mt32" resource's presence check in
a concrete environment reduces to existence plus identification. -/
theorem claim_C10_witness :
    check_rom env_pcm_only "d/" (some mt32_nover_pcm_f) =
      (env_pcm_only.path_exists ("d/" ++ mt32_nover_pcm_f.filename) &&
       (env_pcm_only.identifyROMFile ("d/" ++ mt32_nover_pcm_f.filename)).isSome) :=
  (claim_C10 mt32_nover_pcm_f env_pcm_only "d/").2.1 (by decide)

/-- The pre-population while-loop tops the backstock up to one below the
queue capacity. -/
theorem prepopulate_loop_length (cap : Nat) (b : Buf) :
    ∀ (n : Nat) (q : List Buf), cap - 1 - q.length = n → q.length ≤ cap - 1 →
      (backstock_prepopulate_loop cap b q).length = cap - 1 := by
  intro n
  induction n with
  | zero =>
    intro q h0 hle
    have hnot : ¬(q.length < cap - 1) := by omega
    rw [backstock_prepopulate_loop, if_neg hnot]
    omega
  | succ k ih =>
    intro q h0 hle
    have hlt : q.length < cap - 1 := by omega
    rw [backstock_prepopulate_loop, if_pos hlt]
    exact ih (q ++ [b]) (by simp; omega) (by simp; omega)

/-- Counterexample to C6 as stated: at capacity 3, the render thread's
pre-population step leaves 3 buffers in an initially empty backstock — the
full capacity, matching the source's own assertion
`assert(backstock.Size() == backstock.MaxCapacity())` — not capacity − 1 = 2. -/
theorem claim_C6_counterexample :
    (render_prepopulate 3 0 []).length = 3 ∧ (render_prepopulate 3 0 []).length ≠ 3 - 1 := by
  constructor
  · simp [render_prepopulate, backstock_prepopulate_loop]
  · simp [render_prepopulate, backstock_prepopulate_loop]

/-- Claim C6 (amended): on entry the rendering thread pre-populates an
initially empty backstock to its full capacity — the while-loop enqueues
copies up to capacity − 1 and the scratch buffer itself is then moved in as
the final one; the Playback Pull Interface instead receives its initial
current buffer from the playable queue in Open. -/
theorem claim_C6 (cap : Nat) (b : Buf) (h : 1 ≤ cap) :
    (render_prepopulate cap b []).length = cap := by
  rw [render_prepopulate, List.length_append]
  rw [prepopulate_loop_length cap b (cap - 1) [] (by simp) (by simp)]
  simp
  omega

/-- Witness for C6 at capacity 3. -/
theorem claim_C6_witness : (render_prepopulate 3 0 []).length = 3 :=
  claim_C6 3 0 (by decide)

/-- Counterexample to C7 as stated: asking for 2500 frames with 400 left in
the current 1024-frame buffer pulls three more buffers from playable
(returning three spent buffers, not two) and finishes with 52 frames — not
1896 — consumed from the fourth buffer: 400 + 1024 + 1024 + 52 = 2500. -/
theorem claim_C7_counterexample :
    MixerCallBack 2500 scenario_state =
      some { play_buffer := 103, playable := [], backstock := [100, 101, 102],
             total_buffers_played := 3, last_played_frame := 52 } ∧
    ([100, 101, 102] : List Buf).length ≠ scenario_state.backstock.length + 2 ∧
    (52 : Nat) ≠ 1896 := by
  refine ⟨?_, by simp [scenario_state], by decide⟩
  simp [MixerCallBack, GetRemainingFrames, FRAMES_PER_BUFFER, scenario_state]

/-- Claim C7 (amended): asked for 2500 frames while the current 1024-frame
buffer has 400 frames remaining (cursor at 624), the Playback Pull Interface
consumes those 400 frames, pulls exactly three more full buffers from the
playable queue (returning exactly three spent buffers to backstock, in
order), advances the buffer counter by three, and finishes with 52 frames
consumed from the fourth buffer. -/
theorem claim_C7 (b0 b1 b2 b3 : Buf) (rest back : List Buf) (t : Nat) :
    MixerCallBack 2500
      { play_buffer := b0, playable := b1 :: b2 :: b3 :: rest, backstock := back,
        total_buffers_played := t, last_played_frame := 624 } =
    some { play_buffer := b3, playable := rest, backstock := back ++ [b0, b1, b2],
           total_buffers_played := t + 3, last_played_frame := 52 } := by
  simp [MixerCallBack, GetRemainingFrames, FRAMES_PER_BUFFER]

/-- Claim C1: with coherent presence caches, resolving the wildcard "auto"
returns exactly the result of iterating the fixed catalog in its priority
order — the CM-32L family first, as the catalog's name list shows — and, per
model, iterating the search order, yielding the first (model, directory)
pair whose presence check and engine load both succeed; the result equals
the cache-free resolve_spec, hence depends only on which pairs are usable
and not on any catalog entry's internal cache state. -/
theorem claim_C1 (env : Env) (models : List Model) (dirs : List String) (s : Service)
    (hcv : ∀ m ∈ models, CacheValid env m) :
    (load_model_pair env "auto" models dirs s).1 = resolve_spec env "auto" models dirs ∧
    (load_model env "auto" models dirs s).1 = (resolve_spec env "auto" models dirs).isSome ∧
    all_models.map Model.name =
      ["cm32l", "cm32l_1_02", "cm32l_1_00", "mt32", "mt32_2_04", "mt32_bluer",
       "mt32_1_07", "mt32_1_06", "mt32_1_05", "mt32_1_04"] := by
  have h1 := load_model_pair_spec env "auto" dirs models s hcv
  refine ⟨h1, ?_, by rfl⟩
  rw [load_model_eq_pair env "auto" dirs models s, h1]

/-- Witness for C1: the full catalog with empty caches in a concrete
environment. -/
theorem claim_C1_witness :
    (load_model_pair env_empty "auto" all_models ["d/"] service_empty).1 =
      resolve_spec env_empty "auto" all_models ["d/"] ∧
    (load_model env_empty "auto" all_models ["d/"] service_empty).1 =
      (resolve_spec env_empty "auto" all_models ["d/"]).isSome ∧
    all_models.map Model.name =
      ["cm32l", "cm32l_1_02", "cm32l_1_00", "mt32", "mt32_2_04", "mt32_bluer",
       "mt32_1_07", "mt32_1_06", "mt32_1_05", "mt32_1_04"] :=
  claim_C1 env_empty all_models ["d/"] service_empty (by
    intro m hm
    apply cacheValid_of_nil
    fin_cases hm <;> rfl)

/-- Counterexample to C2 as stated: with catalog ["ma", "mb"] and search
order ["dir1/", "dir2/"], in an environment where "ma" is usable only in
"dir2/" while "mb" is usable in "dir1/", auto-resolution returns directory
"dir2/" although the earlier directory "dir1/" contains a usable
configuration — model priority outweighs directory order. -/
theorem claim_C2_counterexample :
    (load_model_pair env_cross "auto" [model_ma, model_mb] ["dir1/", "dir2/"]
        service_empty).1 = some ("ma", "dir2/") ∧
    usable env_cross model_mb "dir1/" = true ∧
    "dir2/" ≠ "dir1/" := by
  refine ⟨by decide, by decide, by decide⟩

/-- Claim C2 (amended): when resolution returns a (configuration, directory)
pair, its directory is the earliest directory of the search order that is
usable for that returned configuration (a selector-matching catalog entry);
the directory order decides only within one configuration, while across
configurations the catalog priority order dominates. -/
theorem claim_C2 (env : Env) (sel : String) (models : List Model) (dirs : List String)
    (s : Service) (n d : String)
    (hcv : ∀ m ∈ models, CacheValid env m)
    (h : (load_model_pair env sel models dirs s).1 = some (n, d)) :
    ∃ m, m ∈ models ∧ m.name = n ∧ (sel == "auto" || sel == m.name) = true ∧
      dirs.find? (usable env m) = some d := by
  rw [load_model_pair_spec env sel dirs models s hcv] at h
  exact resolve_spec_eq_some env sel dirs models n d h

/-- Witness for C2 on the crossed two-model environment. -/
theorem claim_C2_witness :
    ∃ m, m ∈ [model_ma, model_mb] ∧ m.name = "ma" ∧
      (("auto" : String) == "auto" || ("auto" : String) == m.name) = true ∧
      (["dir1/", "dir2/"].find? (usable env_cross m)) = some "dir2/" :=
  claim_C2 env_cross "auto" [model_ma, model_mb] ["dir1/", "dir2/"] service_empty
    "ma" "dir2/"
    (by
      intro m hm
      apply cacheValid_of_nil
      fin_cases hm <;> rfl)
    (by decide)

/-- Calling InDir again on its own output changes nothing: the queried
directory is now cached. -/
theorem InDir_idem (env : Env) (m : Model) (dir : String) :
    ((m.InDir env dir).2).InDir env dir = m.InDir env dir := by
  cases hl : m.inDir.lookup dir with
  | some b => simp [Model.InDir, hl]
  | none => simp [Model.InDir, hl, lookup_cons_self]

/-- Loading from the model InDir returned behaves exactly like loading from
the original model: Load re-runs the presence check on a warm cache. -/
theorem Load_after_InDir (env : Env) (m : Model) (dir : String) (s : Service) :
    ((m.InDir env dir).2).Load env dir s = m.Load env dir s := by
  simp only [Model.Load, InDir_idem]

/-- The load_rom lambda only ever appends to the engine's ROM list. -/
theorem load_rom_appends (env : Env) (dir : String) (rom : Option rom_t)
    (expected_code : mt32emu_return_code) (s : Service) :
    ∃ t, (load_rom env dir rom expected_code s).2.added = s.added ++ t := by
  cases rom with
  | none => exact ⟨[], by simp [load_rom]⟩
  | some r =>
    simp only [load_rom]
    split
    · exact ⟨[rom_add.full (dir ++ r.filename)], rfl⟩
    · exact ⟨[], by simp⟩

/-- The load_pair lambda only ever appends to the engine's ROM list. -/
theorem load_pair_appends (env : Env) (dir : String) (rom_a rom_b : Option rom_t)
    (expected_code : mt32emu_return_code) (s : Service) :
    ∃ t, (load_pair env dir rom_a rom_b expected_code s).2.added = s.added ++ t := by
  cases rom_a with
  | none => exact ⟨[], by simp [load_pair]⟩
  | some a =>
    cases rom_b with
    | none => exact ⟨[], by simp [load_pair]⟩
    | some b =>
      simp only [load_pair]
      split
      · exact ⟨[rom_add.pair (dir ++ a.filename) (dir ++ b.filename)], rfl⟩
      · exact ⟨[], by simp⟩

/-- Counterexample to C4 as stated: in an environment where both traditional
MT-32 ROMs are present but only the PCM ROM can be added, Load fails — yet
the engine's loaded-ROM state is not "as if nothing was added": it retains
the successfully added PCM ROM. -/
theorem claim_C4_counterexample :
    (mt32_nover_model.Load env_pcm_only "d/" service_empty).1 = false ∧
    (mt32_nover_model.Load env_pcm_only "d/" service_empty).2.2.added =
      [rom_add.full "d/MT32_PCM.ROM"] ∧
    (mt32_nover_model.Load env_pcm_only "d/" service_empty).2.2 ≠ service_empty := by
  refine ⟨by decide, by decide, by decide⟩


/-- When the presence check passes, the boolean Load returns is the
conjunction of the two roles' pure load conditions. -/
theorem Load_fst_of_present (env : Env) (m : Model) (dir : String) (s : Service)
    (hp : (m.InDir env dir).1 = true) :
    (m.Load env dir s).1 = (load_pcm_pure env m dir && load_ctrl_pure env m dir) := by
  obtain ⟨c, hc⟩ := InDir_snd_eq m env dir
  simp only [Model.Load, hp, Bool.not_true, Bool.false_eq_true, if_false]
  rw [hc]
  simp only [load_pcm_pure, load_ctrl_pure]
  cases hpf : (match m.pcmFull with
      | none => false
      | some r => env.addROMFile (dir ++ r.filename) == ADDED_PCM_ROM) <;>
    cases hcf : (match m.ctrlFull with
        | none => false
        | some r => env.addROMFile (dir ++ r.filename) == ADDED_CONTROL_ROM) <;>
    simp [hpf, hcf, load_rom_fst, load_pair_fst]

/-- Claim C4 (amended): when the candidate is present and exactly one of its
two resource roles loads into the engine — the PCM role but not the control
role, or vice versa, in each case by the full file or by the merged pair —
Load returns false, the candidate counts as not loaded, and resolution
continues with the next directory or configuration; but the engine's
loaded-ROM state is not left as if nothing was added: it strictly extends
the prior state and retains the successfully loaded role's resource. -/
theorem claim_C4 (env : Env) (m : Model) (dir : String) (s : Service)
    (hp : (m.InDir env dir).1 = true)
    (hone : (load_pcm_pure env m dir = true ∧ load_ctrl_pure env m dir = false) ∨
            (load_pcm_pure env m dir = false ∧ load_ctrl_pure env m dir = true)) :
    (m.Load env dir s).1 = false ∧
    (∃ t, t ≠ [] ∧ (m.Load env dir s).2.2.added = s.added ++ t) ∧
    (load_pcm_pure env m dir = true →
      (∃ rp, m.pcmFull = some rp ∧
        rom_add.full (dir ++ rp.filename) ∈ (m.Load env dir s).2.2.added) ∨
      (∃ a b, m.pcmA = some a ∧ m.pcmB = some b ∧
        rom_add.pair (dir ++ a.filename) (dir ++ b.filename) ∈ (m.Load env dir s).2.2.added)) ∧
    (load_ctrl_pure env m dir = true →
      (∃ rc2, m.ctrlFull = some rc2 ∧
        rom_add.full (dir ++ rc2.filename) ∈ (m.Load env dir s).2.2.added) ∨
      (∃ a b, m.ctrlA = some a ∧ m.ctrlB = some b ∧
        rom_add.pair (dir ++ a.filename) (dir ++ b.filename) ∈ (m.Load env dir s).2.2.added)) ∧
    (∀ rest, try_dirs env m (dir :: rest) s =
      try_dirs env (m.Load env dir s).2.1 rest (m.Load env dir s).2.2) := by
  obtain ⟨c, hc⟩ := InDir_snd_eq m env dir
  have e1 : ∀ sx, load_rom env dir (m.InDir env dir).2.pcmFull ADDED_PCM_ROM sx =
      load_rom env dir m.pcmFull ADDED_PCM_ROM sx := by intro sx; rw [hc]
  have e2 : ∀ sx, load_pair env dir (m.InDir env dir).2.pcmA (m.InDir env dir).2.pcmB
      ADDED_PCM_ROM sx = load_pair env dir m.pcmA m.pcmB ADDED_PCM_ROM sx := by
    intro sx; rw [hc]
  have e3 : ∀ sx, load_rom env dir (m.InDir env dir).2.ctrlFull ADDED_CONTROL_ROM sx =
      load_rom env dir m.ctrlFull ADDED_CONTROL_ROM sx := by intro sx; rw [hc]
  have e4 : ∀ sx, load_pair env dir (m.InDir env dir).2.ctrlA (m.InDir env dir).2.ctrlB
      ADDED_CONTROL_ROM sx = load_pair env dir m.ctrlA m.ctrlB ADDED_CONTROL_ROM sx := by
    intro sx; rw [hc]
  have hload : (m.Load env dir s).1 = false := by
    rw [Load_fst_of_present env m dir s hp]
    rcases hone with ⟨h1, h2⟩ | ⟨h1, h2⟩ <;> rw [h1, h2] <;> rfl
  have hcont : ∀ rest, try_dirs env m (dir :: rest) s =
      try_dirs env (m.Load env dir s).2.1 rest (m.Load env dir s).2.2 := by
    intro rest
    simp only [try_dirs, hp, if_true, Load_after_InDir, hload, Bool.false_eq_true, if_false]
  rcases hone with ⟨hpcm, hctrl⟩ | ⟨hpcm, hctrl⟩
  · -- the PCM role loads, the control role fails
    have hCFP : (match m.ctrlFull with
        | none => false
        | some r => env.addROMFile (dir ++ r.filename) == ADDED_CONTROL_ROM) = false ∧
        (match m.ctrlA, m.ctrlB with
         | some a, some b =>
           env.mergeAndAddROMFiles (dir ++ a.filename) (dir ++ b.filename) == ADDED_CONTROL_ROM
         | _, _ => false) = false := by
      simpa [load_ctrl_pure, Bool.or_eq_false_iff] using hctrl
    have hr2b : ∀ sx, (load_rom env dir m.ctrlFull ADDED_CONTROL_ROM sx).1 = false := by
      intro sx; rw [load_rom_fst]; exact hCFP.1
    have hpcm2 := hpcm
    simp only [load_pcm_pure] at hpcm2
    cases hPF : (match m.pcmFull with
        | none => false
        | some r => env.addROMFile (dir ++ r.filename) == ADDED_PCM_ROM) with
    | true =>
      cases hmf : m.pcmFull with
      | none => rw [hmf] at hPF; simp at hPF
      | some rp =>
        rw [hmf] at hPF
        simp at hPF
        have hA : load_rom env dir m.pcmFull ADDED_PCM_ROM s =
            (true, { added := s.added ++ [rom_add.full (dir ++ rp.filename)] }) := by
          simp [load_rom, hmf, hPF, rc_adds]
        obtain ⟨tc, htc⟩ := load_rom_appends env dir m.ctrlFull ADDED_CONTROL_ROM
          { added := s.added ++ [rom_add.full (dir ++ rp.filename)] }
        obtain ⟨td, htd⟩ := load_pair_appends env dir m.ctrlA m.ctrlB ADDED_CONTROL_ROM
          (load_rom env dir m.ctrlFull ADDED_CONTROL_ROM
            { added := s.added ++ [rom_add.full (dir ++ rp.filename)] }).2
        have hadded : (m.Load env dir s).2.2.added =
            s.added ++ (rom_add.full (dir ++ rp.filename) :: (tc ++ td)) := by
          simp only [Model.Load, hp, Bool.not_true, Bool.false_eq_true, if_false,
            e1, e2, e3, e4, hA, hr2b, if_true]
          rw [htd, htc]
          simp
        refine ⟨hload, ⟨rom_add.full (dir ++ rp.filename) :: (tc ++ td), by simp, hadded⟩,
          ?_, ?_, hcont⟩
        · intro _
          exact Or.inl ⟨rp, rfl, by rw [hadded]; simp⟩
        · intro hcc
          rw [hctrl] at hcc
          simp at hcc
    | false =>
      rw [hPF] at hpcm2
      simp only [Bool.false_or] at hpcm2
      cases hma : m.pcmA with
      | none => rw [hma] at hpcm2; simp at hpcm2
      | some a =>
        cases hmb : m.pcmB with
        | none => rw [hma, hmb] at hpcm2; simp at hpcm2
        | some b =>
          rw [hma, hmb] at hpcm2
          simp at hpcm2
          have hA1 : ∀ sx, (load_rom env dir m.pcmFull ADDED_PCM_ROM sx).1 = false := by
            intro sx; rw [load_rom_fst]; exact hPF
          obtain ⟨ta, hta⟩ := load_rom_appends env dir m.pcmFull ADDED_PCM_ROM s
          have hB : load_pair env dir m.pcmA m.pcmB ADDED_PCM_ROM
              (load_rom env dir m.pcmFull ADDED_PCM_ROM s).2 =
              (true, { added := (load_rom env dir m.pcmFull ADDED_PCM_ROM s).2.added ++
                [rom_add.pair (dir ++ a.filename) (dir ++ b.filename)] }) := by
            simp [load_pair, hma, hmb, hpcm2, rc_adds]
          obtain ⟨tc, htc⟩ := load_rom_appends env dir m.ctrlFull ADDED_CONTROL_ROM
            { added := (load_rom env dir m.pcmFull ADDED_PCM_ROM s).2.added ++
              [rom_add.pair (dir ++ a.filename) (dir ++ b.filename)] }
          obtain ⟨td, htd⟩ := load_pair_appends env dir m.ctrlA m.ctrlB ADDED_CONTROL_ROM
            (load_rom env dir m.ctrlFull ADDED_CONTROL_ROM
              { added := (load_rom env dir m.pcmFull ADDED_PCM_ROM s).2.added ++
                [rom_add.pair (dir ++ a.filename) (dir ++ b.filename)] }).2
          have hadded : (m.Load env dir s).2.2.added =
              s.added ++ (ta ++ rom_add.pair (dir ++ a.filename) (dir ++ b.filename) ::
                (tc ++ td)) := by
            simp only [Model.Load, hp, Bool.not_true, Bool.false_eq_true, if_false,
              e1, e2, e3, e4, hA1, hB, hr2b, if_true]
            rw [htd, htc]
            simp [hta]
          refine ⟨hload, ⟨ta ++ rom_add.pair (dir ++ a.filename) (dir ++ b.filename) ::
            (tc ++ td), by simp, hadded⟩, ?_, ?_, hcont⟩
          · intro _
            exact Or.inr ⟨a, b, rfl, rfl, by rw [hadded]; simp⟩
          · intro hcc
            rw [hctrl] at hcc
            simp at hcc
  · -- the control role loads, the PCM role fails
    have hPFP : (match m.pcmFull with
        | none => false
        | some r => env.addROMFile (dir ++ r.filename) == ADDED_PCM_ROM) = false ∧
        (match m.pcmA, m.pcmB with
         | some a, some b =>
           env.mergeAndAddROMFiles (dir ++ a.filename) (dir ++ b.filename) == ADDED_PCM_ROM
         | _, _ => false) = false := by
      simpa [load_pcm_pure, Bool.or_eq_false_iff] using hpcm
    have hA1 : ∀ sx, (load_rom env dir m.pcmFull ADDED_PCM_ROM sx).1 = false := by
      intro sx; rw [load_rom_fst]; exact hPFP.1
    have hB1 : ∀ sx, (load_pair env dir m.pcmA m.pcmB ADDED_PCM_ROM sx).1 = false := by
      intro sx; rw [load_pair_fst]; exact hPFP.2
    obtain ⟨ta, hta⟩ := load_rom_appends env dir m.pcmFull ADDED_PCM_ROM s
    obtain ⟨tb, htb⟩ := load_pair_appends env dir m.pcmA m.pcmB ADDED_PCM_ROM
      (load_rom env dir m.pcmFull ADDED_PCM_ROM s).2
    have hctrl2 := hctrl
    simp only [load_ctrl_pure] at hctrl2
    cases hCF : (match m.ctrlFull with
        | none => false
        | some r => env.addROMFile (dir ++ r.filename) == ADDED_CONTROL_ROM) with
    | true =>
      cases hmc : m.ctrlFull with
      | none => rw [hmc] at hCF; simp at hCF
      | some rc2 =>
        rw [hmc] at hCF
        simp at hCF
        have hC : load_rom env dir m.ctrlFull ADDED_CONTROL_ROM
            (load_pair env dir m.pcmA m.pcmB ADDED_PCM_ROM
              (load_rom env dir m.pcmFull ADDED_PCM_ROM s).2).2 =
            (true, { added := (load_pair env dir m.pcmA m.pcmB ADDED_PCM_ROM
              (load_rom env dir m.pcmFull ADDED_PCM_ROM s).2).2.added ++
              [rom_add.full (dir ++ rc2.filename)] }) := by
          simp [load_rom, hmc, hCF, rc_adds]
        have hadded : (m.Load env dir s).2.2.added =
            s.added ++ (ta ++ (tb ++ [rom_add.full (dir ++ rc2.filename)])) := by
          simp only [Model.Load, hp, Bool.not_true, Bool.false_eq_true, if_false,
            e1, e2, e3, e4, hA1, hB1, hC, if_true]
          rw [htb, hta]
          simp
        refine ⟨hload, ⟨ta ++ (tb ++ [rom_add.full (dir ++ rc2.filename)]), by simp, hadded⟩,
          ?_, ?_, hcont⟩
        · intro hcc
          rw [hpcm] at hcc
          simp at hcc
        · intro _
          exact Or.inl ⟨rc2, rfl, by rw [hadded]; simp⟩
    | false =>
      rw [hCF] at hctrl2
      simp only [Bool.false_or] at hctrl2
      cases hca : m.ctrlA with
      | none => rw [hca] at hctrl2; simp at hctrl2
      | some a =>
        cases hcb : m.ctrlB with
        | none => rw [hca, hcb] at hctrl2; simp at hctrl2
        | some b =>
          rw [hca, hcb] at hctrl2
          simp at hctrl2
          have hC1 : ∀ sx, (load_rom env dir m.ctrlFull ADDED_CONTROL_ROM sx).1 = false := by
            intro sx; rw [load_rom_fst]; exact hCF
          obtain ⟨tc, htc⟩ := load_rom_appends env dir m.ctrlFull ADDED_CONTROL_ROM
            (load_pair env dir m.pcmA m.pcmB ADDED_PCM_ROM
              (load_rom env dir m.pcmFull ADDED_PCM_ROM s).2).2
          have hD : load_pair env dir m.ctrlA m.ctrlB ADDED_CONTROL_ROM
              (load_rom env dir m.ctrlFull ADDED_CONTROL_ROM
                (load_pair env dir m.pcmA m.pcmB ADDED_PCM_ROM
                  (load_rom env dir m.pcmFull ADDED_PCM_ROM s).2).2).2 =
              (true, { added := (load_rom env dir m.ctrlFull ADDED_CONTROL_ROM
                (load_pair env dir m.pcmA m.pcmB ADDED_PCM_ROM
                  (load_rom env dir m.pcmFull ADDED_PCM_ROM s).2).2).2.added ++
                [rom_add.pair (dir ++ a.filename) (dir ++ b.filename)] }) := by
            simp [load_pair, hca, hcb, hctrl2, rc_adds]
          have hadded : (m.Load env dir s).2.2.added =
              s.added ++ (ta ++ (tb ++ (tc ++
                [rom_add.pair (dir ++ a.filename) (dir ++ b.filename)]))) := by
            simp only [Model.Load, hp, Bool.not_true, Bool.false_eq_true, if_false,
              e1, e2, e3, e4, hA1, hB1, hC1, hD, if_true]
            rw [htc, htb, hta]
            simp
          refine ⟨hload, ⟨ta ++ (tb ++ (tc ++
            [rom_add.pair (dir ++ a.filename) (dir ++ b.filename)])), by simp, hadded⟩,
            ?_, ?_, hcont⟩
          · intro hcc
            rw [hpcm] at hcc
            simp at hcc
          · intro _
            exact Or.inr ⟨a, b, rfl, rfl, by rw [hadded]; simp⟩

/-- Witness for C4 in both directions: with the traditional MT-32 model in
"d/", once with only the PCM add succeeding and once with only the control
add succeeding. -/
theorem claim_C4_witness :
    ((mt32_nover_model.Load env_pcm_only "d/" service_empty).1 = false ∧
     (∃ t, t ≠ [] ∧ (mt32_nover_model.Load env_pcm_only "d/" service_empty).2.2.added =
       service_empty.added ++ t) ∧
     (load_pcm_pure env_pcm_only mt32_nover_model "d/" = true →
       (∃ rp, mt32_nover_model.pcmFull = some rp ∧
         rom_add.full ("d/" ++ rp.filename) ∈
           (mt32_nover_model.Load env_pcm_only "d/" service_empty).2.2.added) ∨
       (∃ a b, mt32_nover_model.pcmA = some a ∧ mt32_nover_model.pcmB = some b ∧
         rom_add.pair ("d/" ++ a.filename) ("d/" ++ b.filename) ∈
           (mt32_nover_model.Load env_pcm_only "d/" service_empty).2.2.added)) ∧
     (load_ctrl_pure env_pcm_only mt32_nover_model "d/" = true →
       (∃ rc2, mt32_nover_model.ctrlFull = some rc2 ∧
         rom_add.full ("d/" ++ rc2.filename) ∈
           (mt32_nover_model.Load env_pcm_only "d/" service_empty).2.2.added) ∨
       (∃ a b, mt32_nover_model.ctrlA = some a ∧ mt32_nover_model.ctrlB = some b ∧
         rom_add.pair ("d/" ++ a.filename) ("d/" ++ b.filename) ∈
           (mt32_nover_model.Load env_pcm_only "d/" service_empty).2.2.added)) ∧
     (∀ rest, try_dirs env_pcm_only mt32_nover_model ("d/" :: rest) service_empty =
       try_dirs env_pcm_only (mt32_nover_model.Load env_pcm_only "d/" service_empty).2.1 rest
         (mt32_nover_model.Load env_pcm_only "d/" service_empty).2.2)) ∧
    ((mt32_nover_model.Load env_ctrl_only "d/" service_empty).1 = false ∧
     (∃ t, t ≠ [] ∧ (mt32_nover_model.Load env_ctrl_only "d/" service_empty).2.2.added =
       service_empty.added ++ t) ∧
     (load_pcm_pure env_ctrl_only mt32_nover_model "d/" = true →
       (∃ rp, mt32_nover_model.pcmFull = some rp ∧
         rom_add.full ("d/" ++ rp.filename) ∈
           (mt32_nover_model.Load env_ctrl_only "d/" service_empty).2.2.added) ∨
       (∃ a b, mt32_nover_model.pcmA = some a ∧ mt32_nover_model.pcmB = some b ∧
         rom_add.pair ("d/" ++ a.filename) ("d/" ++ b.filename) ∈
           (mt32_nover_model.Load env_ctrl_only "d/" service_empty).2.2.added)) ∧
     (load_ctrl_pure env_ctrl_only mt32_nover_model "d/" = true →
       (∃ rc2, mt32_nover_model.ctrlFull = some rc2 ∧
         rom_add.full ("d/" ++ rc2.filename) ∈
           (mt32_nover_model.Load env_ctrl_only "d/" service_empty).2.2.added) ∨
       (∃ a b, mt32_nover_model.ctrlA = some a ∧ mt32_nover_model.ctrlB = some b ∧
         rom_add.pair ("d/" ++ a.filename) ("d/" ++ b.filename) ∈
           (mt32_nover_model.Load env_ctrl_only "d/" service_empty).2.2.added)) ∧
     (∀ rest, try_dirs env_ctrl_only mt32_nover_model ("d/" :: rest) service_empty =
       try_dirs env_ctrl_only (mt32_nover_model.Load env_ctrl_only "d/" service_empty).2.1 rest
         (mt32_nover_model.Load env_ctrl_only "d/" service_empty).2.2)) :=
  ⟨claim_C4 env_pcm_only mt32_nover_model "d/" service_empty (by decide) (by decide),
   claim_C4 env_ctrl_only mt32_nover_model "d/" service_empty (by decide) (by decide)⟩
